import Mathlib

/-!
# Verification of the maker_web HTTP engine specification

Shallow embedding of the request parser (`src/http/request.rs`), the query
parser (`src/http/query.rs`), the response builder (`src/http/response.rs`)
and the canned error responses (`src/errors.rs`) of the maker_web crate,
together with theorems settling the specification claims.

Bytes are modelled as `List Nat` (each entry one byte value).  Fallible
Rust functions returning `Result<_, ErrorKind>` become `Except EK _`.
-/

set_option maxRecDepth 100000
set_option maxHeartbeats 2000000

namespace MakerWeb

/-- Byte strings are lists of byte values. -/
abbrev Bytes := List Nat

/-- Converts an ASCII string literal into its byte list. -/
def bytes (s : String) : Bytes := s.toList.map Char.toNat

/-- Query-parser error type, mirroring `query::Error` in src/http/query.rs. -/
inductive QError where
  | OverLimit (limit : Nat)
  | Empty
deriving DecidableEq, Repr

/-- Error taxonomy, mirroring `ErrorKind` in src/errors.rs.  The `Io` payload
(`io::Error`) carries no information relevant to parsing and is dropped. -/
inductive EK where
  | InvalidMethod
  | InvalidUrl
  | Query (e : QError)
  | InvalidVersion
  | UnsupportedVersion
  | InvalidHeader
  | TooManyHeaders
  | InvalidContentLength
  | InvalidConnection
  | BodyTooLarge
  | BodyMismatch (expected available : Nat)
  | UnexpectedBody (n : Nat)
  | ServiceUnavailable
  | Io
deriving DecidableEq, Repr

/-- Decidable equality for `Except` results with decidable components. -/
instance instDecEqExcept {ε α : Type} [DecidableEq ε] [DecidableEq α] :
    DecidableEq (Except ε α) := fun a b =>
  match a, b with
  | .error e1, .error e2 => decidable_of_iff (e1 = e2) (by simp)
  | .ok v1, .ok v2 => decidable_of_iff (v1 = v2) (by simp)
  | .error _, .ok _ => isFalse (by simp)
  | .ok _, .error _ => isFalse (by simp)

/-- HTTP methods, mirroring `Method` in src/http/types.rs. -/
inductive Method where
  | Get | Put | Post | Head | Patch | Delete | Options
deriving DecidableEq, Repr

/-- HTTP versions, mirroring `Version` in src/http/types.rs. -/
inductive Version where
  | Http09 | Http10 | Http11
deriving DecidableEq, Repr

/-! ## Query parser (src/http/query.rs) -/

/-- Splits one query segment at its first `=` (byte 61): the key is
everything before the first `=`, the value everything after it, and a
segment without `=` yields the whole segment as key with an empty value.
This mirrors the `memchr(b'=', ..)` split inside `Query::parse_into`. -/
def splitParam (seg : Bytes) : Bytes × Bytes :=
  (seg.takeWhile (fun b => !(b == 61)), (seg.dropWhile (fun b => !(b == 61))).drop 1)

/-- The `while start < data.len()` loop of `Query::parse_into`: while bytes
remain, check the parameter limit against the current collection length
(`cnt`), cut the segment before the next `&` (byte 38), split it at its
first `=`, and continue after the `&`. -/
def parse_into_loop (data : Bytes) (cnt limit : Nat) :
    Except QError (List (Bytes × Bytes)) :=
  match data with
  | [] => .ok []
  | b :: rest =>
    if limit ≤ cnt then .error (.OverLimit limit)
    else
      let seg := (b :: rest).takeWhile (fun x => !(x == 38))
      let tail := ((b :: rest).dropWhile (fun x => !(x == 38))).drop 1
      match parse_into_loop tail (cnt + 1) limit with
      | .error e => .error e
      | .ok ps => .ok (splitParam seg :: ps)
termination_by data.length
decreasing_by
  have h1 : ((b :: rest).dropWhile (fun x => !(x == 38))).length ≤
      (b :: rest).length := (List.dropWhile_sublist _).length_le
  simp only [List.length_drop, List.length_cons] at h1 ⊢
  omega

/-- Mirror of `Query::parse_into` (src/http/query.rs, lines 126-165): an
empty input fails with `Empty`; one optional leading `?` (byte 63) is
stripped; the remaining bytes are consumed by the segment loop, whose
parameter count starts at the length of the existing collection `init`. -/
def parse_into (init : List (Bytes × Bytes)) (query : Bytes) (limit : Nat) :
    Except QError (List (Bytes × Bytes)) :=
  match query with
  | [] => .error .Empty
  | b :: rest =>
    let data := if b == 63 then rest else query
    match parse_into_loop data init.length limit with
    | .error e => .error e
    | .ok ps => .ok (init ++ ps)

/-- Standard split of a byte list on the `&` byte (38): produces one (possibly
empty) segment between every two separators, including an empty segment after
a trailing separator and a single empty segment for the empty list.  This is
the claim-side reading of "splits the remainder on `&`". -/
def splitOnAmp : Bytes → List Bytes
  | [] => [[]]
  | b :: rest =>
    if b == 38 then [] :: splitOnAmp rest
    else
      match splitOnAmp rest with
      | s :: ss => (b :: s) :: ss
      | [] => [[b]]

/-- Claim-side query parser, following the words of claim C6: `Empty` exactly
when the input is empty; strip one optional leading `?`; split the remainder
on `&`; split every segment at its first `=`; `OverLimit limit` exactly when
the number of parameters would exceed `limit`. -/
def querySpecParse (query : Bytes) (limit : Nat) :
    Except QError (List (Bytes × Bytes)) :=
  if query = [] then .error .Empty
  else
    let data := if query.head? = some 63 then query.tail else query
    let pairs := (splitOnAmp data).map splitParam
    if limit < pairs.length then .error (.OverLimit limit) else .ok pairs

/-- Checks whether a byte list ends with the `&` byte (38). -/
def endsWithAmp : Bytes → Bool
  | [] => false
  | [b] => b == 38
  | _ :: rest => endsWithAmp rest

/-- Amended claim-side query parser: as `querySpecParse`, except that the
final empty segment produced when the remainder is empty or ends in `&` is
dropped and contributes no pair. -/
def querySpecParseAmended (query : Bytes) (limit : Nat) :
    Except QError (List (Bytes × Bytes)) :=
  if query = [] then .error .Empty
  else
    let data := if query.head? = some 63 then query.tail else query
    let segs :=
      if data = [] || endsWithAmp data then (splitOnAmp data).dropLast
      else splitOnAmp data
    let pairs := segs.map splitParam
    if limit < pairs.length then .error (.OverLimit limit) else .ok pairs

/-- The segment list actually produced by the `parse_into` loop: one segment
per started iteration. -/
def codeSegs (data : Bytes) : List Bytes :=
  match data with
  | [] => []
  | b :: rest =>
    (b :: rest).takeWhile (fun x => !(x == 38)) ::
      codeSegs (((b :: rest).dropWhile (fun x => !(x == 38))).drop 1)
termination_by data.length
decreasing_by
  have h1 : ((b :: rest).dropWhile (fun x => !(x == 38))).length ≤
      (b :: rest).length := (List.dropWhile_sublist _).length_le
  simp only [List.length_drop, List.length_cons] at h1 ⊢
  omega

/-! ## Response builder (src/http/response.rs) -/

/-- Construction state of the response builder, mirroring `ResponseState`. -/
inductive RState where
  | Clean | Headers | Complete
deriving DecidableEq, Repr

/-- Response builder state, mirroring the `Response` struct fields relevant
to serialization (`buffer`, `version`, `keep_alive`, `posit_length`,
`start_body`, `state`). -/
structure RespB where
  buffer : Bytes
  version : Version
  keep_alive : Bool
  posit_length : Nat
  start_body : Nat
  state : RState
deriving DecidableEq, Repr

/-- Mirror of `Response::new`: empty buffer, version `Http11`,
`keep_alive = true`, both markers zero, state `Clean`. -/
def respNew : RespB :=
  { buffer := [], version := .Http11, keep_alive := true,
    posit_length := 0, start_body := 0, state := .Clean }

/-- Models the connection engine assigning the parsed request version and
keep-alive flag into the response before the handler runs
(src/server/connection.rs and the parser writing `response.version` /
`response.keep_alive`). -/
def setVersionKa (v : Version) (ka : Bool) (r : RespB) : RespB :=
  { r with version := v, keep_alive := ka }

/-- Mirror of `Response::status`: appends the precomputed first-line bytes
for the chosen status code (`StatusCode::to_first_line`, a static table in
src/http/types.rs, whose output is taken here as the `firstLine` argument)
and moves to the `Headers` state.  The debug-mode assertions are omitted;
theorems only apply the builder in the asserted order. -/
def respStatus (firstLine : Bytes) (r : RespB) : RespB :=
  { r with buffer := r.buffer ++ firstLine, state := .Headers }

/-- Mirror of `Response::header`: appends `name ++ ": " ++ value ++ CRLF`. -/
def respHeader (name value : Bytes) (r : RespB) : RespB :=
  { r with buffer := r.buffer ++ name ++ [58, 32] ++ value ++ [13, 10] }

/-- Mirror of `Response::header_multi`: appends the name, `": "`, the values
joined by the splitter, and CRLF. -/
def respHeaderMulti (name split : Bytes) (values : List Bytes) (r : RespB) :
    RespB :=
  { r with buffer :=
      r.buffer ++ name ++ [58, 32] ++ List.intercalate split values ++ [13, 10] }

/-- Renders one `key` or `key=value` item of `Response::header_params`. -/
def paramItem (p : Bytes × Option Bytes) : Bytes :=
  match p.2 with
  | some v => p.1 ++ 61 :: v
  | none => p.1

/-- Mirror of `Response::header_params`: appends the name, `": "`, the
`key` or `key=value` items joined by the splitter, and CRLF. -/
def respHeaderParams (name split : Bytes)
    (params : List (Bytes × Option Bytes)) (r : RespB) : RespB :=
  { r with buffer :=
      r.buffer ++ name ++ [58, 32] ++
        List.intercalate split (params.map paramItem) ++ [13, 10] }

/-- Mirror of `Response::close`: forces `keep_alive = false`. -/
def respClose (r : RespB) : RespB := { r with keep_alive := false }

/-- Mirror of `Response::connection_header`. -/
def connection_header (r : RespB) : Option Bytes :=
  match r.version, r.keep_alive with
  | .Http11, true => none
  | .Http11, false => some (bytes "close")
  | .Http10, true => some (bytes "keep-alive")
  | .Http10, false => some (bytes "close")
  | .Http09, _ => none

/-- The bytes appended to the buffer for the automatic connection header:
the rendering of `header("connection", v)` when `connection_header` yields a
value, nothing otherwise. -/
def connBytes (r : RespB) : Bytes :=
  match connection_header r with
  | some v => bytes "connection" ++ [58, 32] ++ v ++ [13, 10]
  | none => []

/-- Mirror of `Response::start_body`: emit the connection header if needed,
append `"content-length: "`, record the slot position, append the ten-zero
placeholder and the blank-line terminator, and record where the body starts. -/
def respStartBody (r : RespB) : RespB :=
  let r1 :=
    match connection_header r with
    | some v => respHeader (bytes "connection") v r
    | none => r
  let r2 := { r1 with buffer := r1.buffer ++ bytes "content-length: " }
  let r3 := { r2 with posit_length := r2.buffer.length }
  let r4 := { r3 with buffer := r3.buffer ++ bytes "0000000000" ++ [13, 10, 13, 10] }
  { r4 with start_body := r4.buffer.length }

/-- Decimal digit bytes of `n`, most significant first (empty for zero).
These are the digits the `while n > 0` loop of `Response::number_to_bytes`
writes from the right end of its array. -/
def natDigits (n : Nat) : Bytes :=
  if h : n = 0 then [] else natDigits (n / 10) ++ [48 + n % 10]
termination_by n
decreasing_by
  exact Nat.div_lt_self (Nat.pos_of_ne_zero h) (by norm_num)

/-- Mirror of `Response::number_to_bytes` (over the `u128` range): a 39-byte
array filled with ASCII `'0'`, the decimal digits of `n` written right
aligned, returning the array and the index of the first digit (38 for zero). -/
def number_to_bytes (n : Nat) : Bytes × Nat :=
  let ds := natDigits n
  (List.replicate (39 - ds.length) 48 ++ ds,
   if n = 0 then 38 else 39 - ds.length)

/-- Mirror of `Response::end_body`: compute the body length from the byte
count past `start_body`, render it through `number_to_bytes`, copy bytes
29..39 of the array (the last ten digit slots) over the reserved slot at
`posit_length`, and mark the response complete. -/
def respEndBody (r : RespB) : RespB :=
  let body_len := r.buffer.length - r.start_body
  let arr := (number_to_bytes body_len).1
  let slot := (arr.drop 29).take 10
  { r with
    buffer := r.buffer.take r.posit_length ++ slot ++
      r.buffer.drop (r.posit_length + 10),
    state := .Complete }

/-- Mirror of `Response::body` for an already-rendered payload: the
`WriteBuffer` implementations all append the value's byte rendering, taken
here as the `data` argument (`body_with` likewise ends up appending the
closure's output bytes). -/
def respBody (data : Bytes) (r : RespB) : RespB :=
  let r1 := respStartBody r
  respEndBody { r1 with buffer := r1.buffer ++ data }

/-- One header-phase call on the builder. -/
inductive HCall where
  | hdr (name value : Bytes)
  | hdrMulti (name split : Bytes) (values : List Bytes)
  | hdrParams (name split : Bytes) (params : List (Bytes × Option Bytes))
  | closeCall
deriving Repr

/-- Applies one header-phase call. -/
def applyHCall (c : HCall) (r : RespB) : RespB :=
  match c with
  | .hdr n v => respHeader n v r
  | .hdrMulti n s vs => respHeaderMulti n s vs r
  | .hdrParams n s ps => respHeaderParams n s ps r
  | .closeCall => respClose r

/-- Applies a sequence of header-phase calls in order. -/
def applyHCalls (cs : List HCall) (r : RespB) : RespB :=
  cs.foldl (fun r c => applyHCall c r) r

/-- Right-aligned zero-padded ten-digit decimal representation of `n`
(claim-side definition for the content-length slot). -/
def pad10 (n : Nat) : Bytes :=
  List.replicate (10 - (natDigits n).length) 48 ++ natDigits n

/-! ## Canned error responses (src/errors.rs) -/

/-- Status line text of each error kind (code and reason phrase), as pasted
by the `http_errors!` macro invocation in src/errors.rs. -/
def statusText : EK → String
  | .InvalidMethod => "400 Bad Request"
  | .InvalidUrl => "400 Bad Request"
  | .Query _ => "400 Bad Request"
  | .InvalidVersion => "400 Bad Request"
  | .UnsupportedVersion => "505 HTTP Version Not Supported"
  | .InvalidHeader => "400 Bad Request"
  | .TooManyHeaders => "431 Request Header Fields Too Large"
  | .InvalidContentLength => "400 Bad Request"
  | .InvalidConnection => "400 Bad Request"
  | .BodyTooLarge => "413 Payload Too Large"
  | .BodyMismatch _ _ => "400 Bad Request"
  | .UnexpectedBody _ => "400 Bad Request"
  | .ServiceUnavailable => "503 Service Unavailable"
  | .Io => "503 Service Unavailable"

/-- JSON content-length literal of each error kind, as written in the
`http_errors!` table. -/
def jsonLen : EK → String
  | .InvalidMethod => "55"
  | .InvalidUrl => "51"
  | .Query _ => "55"
  | .InvalidVersion => "57"
  | .UnsupportedVersion => "67"
  | .InvalidHeader => "57"
  | .TooManyHeaders => "54"
  | .InvalidContentLength => "66"
  | .InvalidConnection => "65"
  | .BodyTooLarge => "58"
  | .BodyMismatch _ _ => "55"
  | .UnexpectedBody _ => "60"
  | .ServiceUnavailable => "72"
  | .Io => "48"

/-- JSON body of each error kind, as written in the `http_errors!` table. -/
def jsonBody : EK → String
  | .InvalidMethod =>
    "\x7b\"error\":\"Invalid HTTP method\",\"code\":\"INVALID_METHOD\"\x7d"
  | .InvalidUrl =>
    "\x7b\"error\":\"Invalid URL format\",\"code\":\"INVALID_URL\"\x7d"
  | .Query _ =>
    "\x7b\"error\":\"Invalid query string\",\"code\":\"INVALID_QUERY\"\x7d"
  | .InvalidVersion =>
    "\x7b\"error\":\"Invalid HTTP version\",\"code\":\"INVALID_VERSION\"\x7d"
  | .UnsupportedVersion =>
    "\x7b\"error\":\"HTTP version not supported\",\"code\":\"UNSUPPORTED_VERSION\"\x7d"
  | .InvalidHeader =>
    "\x7b\"error\":\"Invalid header format\",\"code\":\"INVALID_HEADER\"\x7d"
  | .TooManyHeaders =>
    "\x7b\"error\":\"Too many headers\",\"code\":\"TOO_MANY_HEADERS\"\x7d"
  | .InvalidContentLength =>
    "\x7b\"error\":\"Invalid Content-Length\",\"code\":\"INVALID_CONTENT_LENGTH\"\x7d"
  | .InvalidConnection =>
    "\x7b\"error\":\"Invalid Connection header\",\"code\":\"INVALID_CONNECTION\"\x7d"
  | .BodyTooLarge =>
    "\x7b\"error\":\"Request body too large\",\"code\":\"BODY_TOO_LARGE\"\x7d"
  | .BodyMismatch _ _ =>
    "\x7b\"error\":\"Body length mismatch\",\"code\":\"BODY_MISMATCH\"\x7d"
  | .UnexpectedBody _ =>
    "\x7b\"error\":\"Unexpected request body\",\"code\":\"UNEXPECTED_BODY\"\x7d"
  | .ServiceUnavailable =>
    "\x7b\"error\":\"Service temporarily unavailable\",\"code\":\"SERVICE_UNAVAILABLE\"\x7d"
  | .Io =>
    "\x7b\"error\":\"I/O error occurred\",\"code\":\"IO_ERROR\"\x7d"

/-- Mirror of `ErrorKind::as_http` as expanded by the `http_errors!` macro:
the canned response text for an error kind, version and `json_errors` flag.
For `Http09` the body pastes `stringify!` of the status string literal, so
the literal's quote characters are part of the output. -/
def as_http (e : EK) (v : Version) (json : Bool) : String :=
  match json, v with
  | true, .Http11 =>
    "HTTP/1.1 " ++ statusText e ++ "\r\n" ++
      "connection: close\r\n" ++
      "content-length: " ++ jsonLen e ++ "\r\n" ++
      "content-type: application/json\r\n" ++
      "\r\n" ++ jsonBody e
  | false, .Http11 =>
    "HTTP/1.1 " ++ statusText e ++ "\r\n" ++
      "connection: close\r\n" ++
      "content-length: 0\r\n\r\n"
  | true, .Http10 =>
    "HTTP/1.0 " ++ statusText e ++ "\r\n" ++
      "connection: close\r\n" ++
      "content-length: " ++ jsonLen e ++ "\r\n" ++
      "content-type: application/json\r\n" ++
      "\r\n" ++ jsonBody e
  | false, .Http10 =>
    "HTTP/1.0 " ++ statusText e ++ "\r\n" ++
      "connection: close\r\n" ++
      "content-length: 0\r\n\r\n"
  | _, .Http09 =>
    "ERROR: \"" ++ statusText e ++ "\""

/-- Substring scan: the pattern is a prefix of some suffix. -/
def containsStrAux (pat : List Char) : List Char → Bool
  | [] => pat.isPrefixOf []
  | c :: rest => pat.isPrefixOf (c :: rest) || containsStrAux pat rest

/-- Substring test on strings. -/
def containsStr (pat s : String) : Bool :=
  containsStrAux pat.toList s.toList

/-- Claim-side status table: the HTTP status code and reason phrase the
specification's error table assigns to each error kind. -/
def statusOfSpec : EK → String
  | .InvalidMethod => "400 Bad Request"
  | .InvalidUrl => "400 Bad Request"
  | .Query _ => "400 Bad Request"
  | .InvalidVersion => "400 Bad Request"
  | .UnsupportedVersion => "505 HTTP Version Not Supported"
  | .InvalidHeader => "400 Bad Request"
  | .TooManyHeaders => "431 Request Header Fields Too Large"
  | .InvalidContentLength => "400 Bad Request"
  | .InvalidConnection => "400 Bad Request"
  | .BodyTooLarge => "413 Payload Too Large"
  | .BodyMismatch _ _ => "400 Bad Request"
  | .UnexpectedBody _ => "400 Bad Request"
  | .ServiceUnavailable => "503 Service Unavailable"
  | .Io => "503 Service Unavailable"

/-- Prefix test on strings via their character lists. -/
def strStarts (pat s : String) : Bool := pat.toList.isPrefixOf s.toList

/-- Suffix test on strings via their character lists. -/
def strEnds (pat s : String) : Bool :=
  pat.toList.reverse.isPrefixOf s.toList.reverse

/-- Characters after the first blank-line terminator. -/
def bodyOfAux : List Char → List Char
  | [] => []
  | c :: rest =>
    if [Char.ofNat 13, Char.ofNat 10, Char.ofNat 13,
        Char.ofNat 10].isPrefixOf (c :: rest) then
      rest.drop 3
    else bodyOfAux rest

/-- The body part of a canned HTTP/1.x response: everything after the first
blank-line terminator (empty when there is none). -/
def bodyOf (s : String) : String := ⟨bodyOfAux s.toList⟩

/-! ## Request parser (src/http/request.rs)

The parser operates in place on a fixed zero-initialized buffer.  The
configuration is the `ReqLimits` record; `url_size_memchr` and `len_http09`
are precalculated fields referenced by request.rs whose computation is not
in the snapshot (src/limits.rs holds an older revision of the file without
them); `url_size_memchr` is modelled from the spec's derived-value table and
the `check_limits` boundary tests as `url_size + 1`, and `len_http09` as the
first-line size `19 + url_size`. -/

/-- Request limits with the precalculated values used by the parser. -/
structure Limits where
  url_size : Nat
  url_parts : Nat
  url_query_parts : Nat
  header_count : Nat
  header_name_size : Nat
  header_value_size : Nat
  body_size : Nat
  url_size_memchr : Nat
  len_http09 : Nat
  h_line : Nat
  bufferSize : Nat
deriving Repr

/-- Parser state, mirroring the `Parser` struct: cursor, number of valid
bytes, terminator mode flag and the fixed buffer. -/
structure ParserSt where
  position : Nat
  len : Nat
  has_crlf : Bool
  buffer : Bytes
deriving DecidableEq, Repr

/-- Mirror of `Parser::get_slice`: `buffer.get(start..start + step)`, which
is `none` exactly when the range exceeds the buffer. -/
def get_slice (p : ParserSt) (start step : Nat) : Option Bytes :=
  if start + step ≤ p.buffer.length then some ((p.buffer.drop start).take step)
  else none

/-- Mirror of `memchr`: index of the first occurrence of `delim`. -/
def memchr (delim : Nat) (s : Bytes) : Option Nat :=
  s.findIdx? (fun b => b == delim)

/-- Mirror of `Parser::find_char`: search `delim` in the window of `step`
bytes starting at the cursor. -/
def find_char (p : ParserSt) (step delim : Nat) : Option Nat :=
  match get_slice p p.position step with
  | none => none
  | some s => memchr delim s

/-- Mirror of `Parser::find_slice`: find the delimiter within `limit` bytes,
advance the cursor past it, and return the bytes before it. -/
def find_slice (p : ParserSt) (limit delim : Nat) :
    Option (Bytes × ParserSt) :=
  match find_char p limit delim with
  | none => none
  | some step =>
    let p' := { p with position := p.position + step + 1 }
    match get_slice p p.position step with
    | none => none
    | some s => some (s, p')

/-- All indices of `delim` in `s`, ascending: the `memchr_iter` stream. -/
def memchrAll (delim : Nat) (s : Bytes) : List Nat :=
  s.enum.filterMap (fun q => if q.2 == delim then some q.1 else none)

/-- Connection state as seen by the parser: the parser, the request view
(method, version, URL view, headers, content length, body) and the response
fields the parser writes (`response.version`, `response.keep_alive`).
`HeaderMap` is absent from the snapshot (src/http/types.rs holds an older
revision); it is modelled from the spec as the header list plus the derived
`content_length`. -/
structure Conn where
  parser : ParserSt
  method : Method
  req_version : Version
  url_parts : List Bytes
  url_query : Option Bytes
  url_query_pairs : List (Bytes × Bytes)
  url_path : Bytes
  url_target : Bytes
  headers : List (Bytes × Bytes)
  content_length : Option Nat
  body : Option Bytes
  resp_version : Version
  resp_keep_alive : Bool
deriving DecidableEq, Repr

/-- Modelled from the spec: the tuple-returning `Method::from_bytes` used by
`parse_method` is absent from the snapshot (src/http/types.rs holds an older
signature).  Per the spec, methods are decoded by exact uppercase byte match
from the fixed eight-byte window, the token being followed by the space; the
returned position is the index just past that space. -/
def methodFromBytes (s : Bytes) : Except EK (Method × Nat) :=
  if (bytes "GET ").isPrefixOf s then .ok (.Get, 4)
  else if (bytes "PUT ").isPrefixOf s then .ok (.Put, 4)
  else if (bytes "POST ").isPrefixOf s then .ok (.Post, 5)
  else if (bytes "HEAD ").isPrefixOf s then .ok (.Head, 5)
  else if (bytes "PATCH ").isPrefixOf s then .ok (.Patch, 6)
  else if (bytes "DELETE ").isPrefixOf s then .ok (.Delete, 7)
  else if (bytes "OPTIONS ").isPrefixOf s then .ok (.Options, 8)
  else .error .InvalidMethod

/-- Modelled from the spec: `Version::from_bytes` is absent from the
snapshot (src/http/types.rs holds an older revision).  Per the spec, the
eight-byte token `HTTP/1.1` gives keep-alive true, `HTTP/1.0` gives
keep-alive false, and any other token is an unsupported version. -/
def versionFromBytes (s : Bytes) : Except EK (Version × Bool) :=
  if s = bytes "HTTP/1.1" then .ok (.Http11, true)
  else if s = bytes "HTTP/1.0" then .ok (.Http10, false)
  else .error .UnsupportedVersion

/-- ASCII lowercase of one byte. -/
def toLowerByte (b : Nat) : Nat := if 65 ≤ b ∧ b ≤ 90 then b + 32 else b

/-- Mirror of `Parser::new`/`Parser::from` plus `HttpConnection::from_req`:
the request bytes sit at the start of the zero-filled fixed buffer (the
input must fit in the buffer, as in the Rust constructor). -/
def mkConn (L : Limits) (input : Bytes) : Conn :=
  { parser :=
      { position := 0, len := input.length, has_crlf := false,
        buffer := input ++ List.replicate (L.bufferSize - input.length) 0 },
    method := .Get, req_version := .Http11,
    url_parts := [], url_query := none, url_query_pairs := [],
    url_path := [], url_target := [],
    headers := [], content_length := none, body := none,
    resp_version := .Http11, resp_keep_alive := true }

/-- Mirror of `parse_method`: read the fixed eight-byte window at the start
of the buffer and decode the method and the new cursor position. -/
def parse_method (c : Conn) : Except EK Conn :=
  match get_slice c.parser 0 8 with
  | none => .error .InvalidMethod
  | some s =>
    match methodFromBytes s with
    | .error e => .error e
    | .ok mp =>
      .ok { c with method := mp.1,
                   parser := { c.parser with position := mp.2 } }

/-- Mirror of `is_http_09`: HTTP/0.9 limits configured, short enough
request, method `GET`, and the valid bytes end with CRLF. -/
def is_http_09 (L : Limits) (h09 : Bool) (c : Conn) : Bool :=
  h09 && c.parser.len < L.len_http09 && c.method == .Get &&
    (bytes "\r\n").isSuffixOf (c.parser.buffer.take c.parser.len)

/-- Mirror of `get_range_url_http_09`: on success returns the updated
connection (keep-alive marker handled, versions set to `Http09`) and the
`[start, posit]` pair handed back to `parse_url`. -/
def get_range_url_http_09 (c : Conn) : Except EK (Conn × Nat × Nat) :=
  let p := c.parser
  let end_url := p.len - 2
  if p.position ≥ end_url then .error .InvalidUrl
  else
    match get_slice p p.position 12 with
    | none => .error .InvalidUrl
    | some s =>
      let keepAlive := (bytes "/keep_alive").isPrefixOf s
      let pos' := if keepAlive then p.position + 11 else p.position
      let c' := { c with
        parser := { p with position := pos' },
        req_version := .Http09, resp_version := .Http09,
        resp_keep_alive := keepAlive }
      .ok (c', pos' + 1, end_url - pos')

/-- Mirror of the `memchr_iter(b'/', slice_url)` loop in `parse_url`: for
every slash index, fail once the collected parts reach `url_parts`, cut the
segment since the previous slash, push it when non-empty, and continue after
the slash.  Returns the collected parts and the final `last` offset. -/
def url_parts_loop (L : Limits) (p : ParserSt) (start : Nat) :
    List Nat → List Bytes → Nat → Except EK (List Bytes × Nat)
  | [], parts, last => .ok (parts, last)
  | idx :: rest, parts, last =>
    if parts.length = L.url_parts then .error .InvalidUrl
    else
      match get_slice p (start + last) (idx - last) with
      | none => .error .InvalidUrl
      | some sp =>
        url_parts_loop L p start rest
          (if sp = [] then parts else parts ++ [sp]) (idx + 1)

/-- Query branch of `parse_url`: when a `?` is found at (window-relative)
index `q_pos`, the code takes the slice starting at `q_pos` taken as an
absolute buffer index (the relative offset is not rebased, exactly as in the
source) and feeds it to the query parser, appending to the existing pairs. -/
def parse_url_query (L : Limits) (p : ParserSt) (c : Conn)
    (range0 range1 posit : Nat) :
    Except EK (Option Bytes × List (Bytes × Bytes) × Nat × Nat) :=
  match find_char p posit 63 with
  | some q_pos =>
    match get_slice p q_pos ((range0 + range1) - q_pos) with
    | none => .error .InvalidUrl
    | some qslice =>
      match parse_into c.url_query_pairs qslice L.url_query_parts with
      | .error e => .error (.Query e)
      | .ok qpairs => .ok (some qslice, qpairs, q_pos, q_pos)
  | none => .ok (c.url_query, c.url_query_pairs, posit, posit)

/-- Mirror of `parse_url` (src/http/request.rs, lines 126-199): locate the
space ending the URL (or the HTTP/0.9 line range), require the leading `/`,
collect the slash-separated parts, decompose an optional query, store the
path and target views, and advance past the URL. -/
def parse_url (L : Limits) (h09 : Bool) (c : Conn) : Except EK Conn :=
  let headStep : Except EK (Conn × Nat × Nat) :=
    match find_char c.parser L.url_size_memchr 32 with
    | some pos => .ok (c, c.parser.position + 1, pos)
    | none =>
      if is_http_09 L h09 c then get_range_url_http_09 c
      else .error .InvalidUrl
  match headStep with
  | .error e => .error e
  | .ok (c1, start, posit) =>
    let p := c1.parser
    let slice_url := (p.buffer.drop start).take ((start + posit) - start)
    if slice_url = [] || !(p.buffer.getD (start - 1) 0 == 47) then
      .error .InvalidUrl
    else
      match url_parts_loop L p start (memchrAll 47 slice_url)
          c1.url_parts 0 with
      | .error e => .error e
      | .ok (parts1, last) =>
        let range0 := start + last
        let range1 := (posit - last) - 1
        match parse_url_query L p c1 range0 range1 posit with
        | .error e => .error e
        | .ok (query, qpairs, end_, url_middle) =>
          match get_slice p range0 ((p.position + end_) - range0) with
          | none => .error .InvalidUrl
          | some slice2 =>
            let parts2 := if slice2 = [] then parts1 else parts1 ++ [slice2]
            match get_slice p p.position url_middle with
            | none => .error .InvalidUrl
            | some path =>
              match get_slice p p.position posit with
              | none => .error .InvalidUrl
              | some target =>
                .ok { c1 with
                  parser := { p with position := p.position + posit + 1 },
                  url_parts := parts2,
                  url_query := query,
                  url_query_pairs := qpairs,
                  url_path := path,
                  url_target := target }

/-- Mirror of `check_version`: the line break must appear within ten bytes,
the token with its terminator is eight or nine bytes, the first eight decode
the version, and a trailing `\r` fixes the CRLF terminator mode. -/
def check_version (c : Conn) : Except EK Conn :=
  match find_slice c.parser 10 10 with
  | none => .error .InvalidVersion
  | some (s, p') =>
    if !(s.length == 8 || s.length == 9) then .error .InvalidVersion
    else
      match versionFromBytes (s.take 8) with
      | .error e => .error e
      | .ok vk =>
        .ok { c with
          parser := { p' with has_crlf := s.getLast? == some 13 },
          req_version := vk.1, resp_version := vk.1,
          resp_keep_alive := vk.2 }

/-- Mirror of `check_http09`: when the parsed version is `Http09`, require
the HTTP/0.9 limits and a final line feed over the remaining valid bytes;
otherwise report that the HTTP/1.x path continues. -/
def check_http09 (h09 : Bool) (c : Conn) : Except EK Bool :=
  if c.req_version = .Http09 then
    if !h09 then .error .UnsupportedVersion
    else if (bytes "\n").isSuffixOf
        ((c.parser.buffer.take c.parser.len).drop c.parser.position) then
      .ok true
    else .error .InvalidVersion
  else .ok false

/-- Mirror of `check_end_of_headers`: the four bytes ending at the line
break must close the header section with the terminator of the active mode,
and the cursor advances past the blank line. -/
def check_end_of_headers (c : Conn) (start : Nat) : Except EK Conn :=
  let p := c.parser
  match get_slice p (p.position + start - 3) 4 with
  | none => .error .InvalidHeader
  | some p_end =>
    if (if p.has_crlf then (bytes "\r\n\r\n").isSuffixOf p_end
        else (bytes "\n\n").isSuffixOf p_end) then
      .ok { c with parser :=
        { p with position := p.position + (if p.has_crlf then 1 else 0) + 1 } }
    else .error .InvalidHeader

/-- Mirror of `parse_header` (src/http/request.rs, lines 292-346): find the
line break within one header line's budget, check the terminator mode,
split at the colon (no colon means end of headers), require `": "`, enforce
the name and value size limits, lowercase the name in place, and return the
header with the cursor advanced.  `to_lower_case` is absent from the
snapshot and modelled from the spec as ASCII lowercasing; the in-place
buffer mutation is dropped because the lowercased region lies before every
later read. -/
def parse_header (L : Limits) (c : Conn) :
    Except EK (Option (Bytes × Bytes) × Conn) :=
  let p := c.parser
  match find_char p L.h_line 10 with
  | none => .error .InvalidHeader
  | some end_ =>
    let term := get_slice p (p.position + end_ - 1) 2
    let termOk :=
      match term with
      | some [a, b] =>
        (p.has_crlf && a == 13 && b == 10) || (!p.has_crlf && b == 10)
      | _ => false
    if !termOk then .error .InvalidHeader
    else
      match find_char p end_ 58 with
      | none =>
        match check_end_of_headers c end_ with
        | .error e => .error e
        | .ok c' => .ok (none, c')
      | some split =>
        if !(get_slice p (p.position + split) 2 == some (bytes ": ")) then
          .error .InvalidHeader
        else
          let value_start := split + 2
          let len_value := end_ - value_start - (if p.has_crlf then 1 else 0)
          if split > L.header_name_size || len_value > L.header_value_size then
            .error .InvalidHeader
          else
            match get_slice p p.position split with
            | none => .error .InvalidHeader
            | some rawName =>
              if rawName = [] then .error .InvalidHeader
              else
                let name := rawName.map toLowerByte
                match get_slice p (p.position + value_start) len_value with
                | none => .error .InvalidHeader
                | some value =>
                  .ok (some (name, value),
                    { c with parser :=
                      { p with position := p.position + end_ + 1 } })

/-- Target-width assumption for `usize`: 64 bits. -/
def USIZE_MAX : Nat := 18446744073709551615

/-- Digit-accumulation loop of `slice_to_usize` with checked arithmetic. -/
def slice_to_usize_go : Bytes → Nat → Option Nat
  | [], acc => some acc
  | b :: rest, acc =>
    if 48 ≤ b ∧ b ≤ 57 then
      if acc * 10 ≤ USIZE_MAX then
        if acc * 10 + (b - 48) ≤ USIZE_MAX then
          slice_to_usize_go rest (acc * 10 + (b - 48))
        else none
      else none
    else none

/-- Mirror of `types::slice_to_usize`: decimal digits folded left with
checked multiply and add; any non-digit or overflow yields `none`. -/
def slice_to_usize (s : Bytes) : Option Nat := slice_to_usize_go s 0

/-- Mirror of `parse_content_length`: parse the decimal value, reject
lengths beyond `body_size`, and record the content length. -/
def parse_content_length (L : Limits) (c : Conn) (value : Bytes) :
    Except EK Conn :=
  match slice_to_usize value with
  | none => .error .InvalidContentLength
  | some n =>
    if n > L.body_size then .error .BodyTooLarge
    else .ok { c with content_length := some n }

/-- Mirror of `parse_connection`.  `into_lower_case` is absent from the
snapshot (src/http/types.rs holds an older revision) and modelled from the
spec as ASCII lowercasing of the value before the case-insensitive match on
`keep-alive` and `close`. -/
def parse_connection (c : Conn) (value : Bytes) : Except EK Conn :=
  let lowered := value.map toLowerByte
  if lowered = bytes "keep-alive" then .ok { c with resp_keep_alive := true }
  else if lowered = bytes "close" then .ok { c with resp_keep_alive := false }
  else .error .InvalidConnection

/-- Mirror of `parse_special_header`: `content-length` and `connection` are
interpreted and consumed; anything else is reported as ordinary. -/
def parse_special_header (L : Limits) (c : Conn) (h : Bytes × Bytes) :
    Except EK (Bool × Conn) :=
  if h.1 = bytes "content-length" then
    match parse_content_length L c h.2 with
    | .error e => .error e
    | .ok c' => .ok (true, c')
  else if h.1 = bytes "connection" then
    match parse_connection c h.2 with
    | .error e => .error e
    | .ok c' => .ok (true, c')
  else .ok (false, c)

/-- The `for _ in 0..=header_count` loop of `parse_headers`: the blank line
must be reached within `header_count + 1` line parses; special headers are
consumed, ordinary ones pushed onto the header list. -/
def headersLoop (L : Limits) : Nat → Conn → Except EK Conn
  | 0, _ => .error .TooManyHeaders
  | fuel + 1, c =>
    match parse_header L c with
    | .error e => .error e
    | .ok (none, c1) => .ok c1
    | .ok (some h, c1) =>
      match parse_special_header L c1 h with
      | .error e => .error e
      | .ok (special, c2) =>
        headersLoop L fuel
          (if special then c2 else { c2 with headers := c2.headers ++ [h] })

/-- Mirror of `parse_headers` (src/http/request.rs, lines 276-290). -/
def parse_headers (L : Limits) (c : Conn) : Except EK Conn :=
  headersLoop L (L.header_count + 1) c

/-- Mirror of `check_body` (src/http/request.rs, lines 406-433): with a
content length equal to the remaining bytes the body view is taken;
a differing content length yields `BodyMismatch`; without a content length
any remaining byte yields `UnexpectedBody`. -/
def check_body (c : Conn) : Except EK Conn :=
  let p := c.parser
  let avail := p.len - p.position
  match c.content_length with
  | some n =>
    if n = avail then
      match get_slice p p.position n with
      | none => .error (.BodyMismatch n avail)
      | some s => .ok { c with body := some s }
    else .error (.BodyMismatch n avail)
  | none =>
    if avail = 0 then .ok c else .error (.UnexpectedBody avail)

/-- Mirror of `HttpConnection::parse` (src/http/request.rs, lines 94-109):
method, URL, the HTTP/0.9 early exit, version, headers, body.  The result
carries the whole connection state (the Rust method returns the version and
leaves the state in `self`). -/
def parseConn (L : Limits) (h09 : Bool) (c : Conn) : Except EK Conn :=
  match parse_method c with
  | .error e => .error e
  | .ok c1 =>
    match parse_url L h09 c1 with
    | .error e => .error e
    | .ok c2 =>
      match check_http09 h09 c2 with
      | .error e => .error e
      | .ok true => .ok c2
      | .ok false =>
        match check_version c2 with
        | .error e => .error e
        | .ok c3 =>
          match parse_headers L c3 with
          | .error e => .error e
          | .ok c4 => check_body c4

/-- A small limits configuration used for concrete runs: the shape of
`ReqLimits::default()` scaled down, with the derived values
`url_size_memchr = url_size + 1`, `h_line = header_name_size +
header_value_size + 4`, `len_http09 = 19 + url_size` and `bufferSize =
(19 + url_size) + header_count * h_line + 2 + body_size`. -/
def smallLimits : Limits :=
  { url_size := 16, url_parts := 8, url_query_parts := 8,
    header_count := 2, header_name_size := 16, header_value_size := 16,
    body_size := 32, url_size_memchr := 17, len_http09 := 35,
    h_line := 36, bufferSize := 141 }

/-- The small limits configuration with `header_count = 1`. -/
def smallLimits1 : Limits :=
  { url_size := 16, url_parts := 8, url_query_parts := 8,
    header_count := 1, header_name_size := 16, header_value_size := 16,
    body_size := 32, url_size_memchr := 17, len_http09 := 35,
    h_line := 36, bufferSize := 105 }

/-- Whether a parse result is a success. -/
def parseOk (r : Except EK Conn) : Bool :=
  match r with
  | .ok _ => true
  | .error _ => false

/-- The error of a parse result, if any. -/
def parseErr (r : Except EK Conn) : Option EK :=
  match r with
  | .ok _ => none
  | .error e => some e

/-- The request version of a successful parse. -/
def parsedVersion (r : Except EK Conn) : Option Version :=
  match r with
  | .ok c => some c.req_version
  | .error _ => none

/-- The URL target view of a successful parse. -/
def parsedTarget (r : Except EK Conn) : Option Bytes :=
  match r with
  | .ok c => some c.url_target
  | .error _ => none

/-- The URL segment list of a successful parse. -/
def parsedParts (r : Except EK Conn) : Option (List Bytes) :=
  match r with
  | .ok c => some c.url_parts
  | .error _ => none

/-- The path view of a successful parse. -/
def parsedPath (r : Except EK Conn) : Option Bytes :=
  match r with
  | .ok c => some c.url_path
  | .error _ => none

/-- The response keep-alive flag of a successful parse. -/
def parsedKeepAlive (r : Except EK Conn) : Option Bool :=
  match r with
  | .ok c => some c.resp_keep_alive
  | .error _ => none

/-- The parsed header list of a successful parse. -/
def parsedHeaders (r : Except EK Conn) : Option (List (Bytes × Bytes)) :=
  match r with
  | .ok c => some c.headers
  | .error _ => none

/-! ## Theorems: query parser (claims C6, C10) -/

/-- The split split on `&` never produces an empty segment list. -/
theorem splitOnAmp_ne_nil (data : Bytes) : splitOnAmp data ≠ [] := by
  cases data with
  | nil => simp [splitOnAmp]
  | cons b rest =>
    simp only [splitOnAmp]
    split
    · simp
    · split <;> simp

/-- Dropping the head byte of a segment shortens the loop tail. -/
theorem ampTail_length_lt (b : Nat) (rest : Bytes) :
    (((b :: rest).dropWhile (fun x => !(x == 38))).drop 1).length <
      (b :: rest).length := by
  have h1 : ((b :: rest).dropWhile (fun x => !(x == 38))).length ≤
      (b :: rest).length := (List.dropWhile_sublist _).length_le
  simp only [List.length_drop, List.length_cons] at h1 ⊢
  omega

/-- Step equation of `codeSegs` on a non-empty list. -/
theorem codeSegs_cons (b : Nat) (rest : Bytes) :
    codeSegs (b :: rest) =
      (b :: rest).takeWhile (fun x => !(x == 38)) ::
        codeSegs (((b :: rest).dropWhile (fun x => !(x == 38))).drop 1) := by
  rw [codeSegs]

/-- Step equation of `parse_into_loop` on a non-empty list. -/
theorem parse_into_loop_cons (b : Nat) (rest : Bytes) (cnt limit : Nat) :
    parse_into_loop (b :: rest) cnt limit =
      if limit ≤ cnt then .error (.OverLimit limit)
      else
        match parse_into_loop
            (((b :: rest).dropWhile (fun x => !(x == 38))).drop 1)
            (cnt + 1) limit with
        | .error e => .error e
        | .ok ps =>
          .ok (splitParam ((b :: rest).takeWhile (fun x => !(x == 38))) :: ps) := by
  rw [parse_into_loop]

/-- Bridge between the claim-side split on `&` and the loop's segments: the
standard split is the loop's segments plus one final empty segment exactly
when the data is empty or ends in `&`. -/
theorem splitOnAmp_eq_codeSegs :
    ∀ (n : Nat) (data : Bytes), data.length ≤ n →
      splitOnAmp data = codeSegs data ++
        (if data = [] || endsWithAmp data then [[]] else []) := by
  intro n
  induction n with
  | zero =>
    intro data hlen
    have : data = [] := by
      cases data with
      | nil => rfl
      | cons b rest => simp at hlen
    subst this
    simp [splitOnAmp, codeSegs]
  | succ n ih =>
    intro data hlen
    cases data with
    | nil => simp [splitOnAmp, codeSegs]
    | cons b rest =>
      by_cases hb : b = 38
      · subst hb
        have htail : ((38 : Nat) :: rest).dropWhile (fun x => !(x == 38)) =
            38 :: rest := by simp [List.dropWhile]
        have hrest : rest.length ≤ n := by simp at hlen; omega
        have ihr := ih rest hrest
        rw [codeSegs_cons, htail]
        have hsplit : splitOnAmp (38 :: rest) = [] :: splitOnAmp rest := by
          simp [splitOnAmp]
        rw [hsplit, ihr]
        have hcond : endsWithAmp (38 :: rest) =
            (decide (rest = []) || endsWithAmp rest) := by
          cases rest with
          | nil => simp [endsWithAmp]
          | cons r rs => simp [endsWithAmp]
        simp [hcond, List.takeWhile]
      · have hbb : (b == 38) = false := by simp [hb]
        have htake : (b :: rest).takeWhile (fun x => !(x == 38)) =
            b :: rest.takeWhile (fun x => !(x == 38)) := by
          simp [List.takeWhile, hbb]
        have hdrop : (b :: rest).dropWhile (fun x => !(x == 38)) =
            rest.dropWhile (fun x => !(x == 38)) := by
          simp [List.dropWhile, hbb]
        have hstep : splitOnAmp (b :: rest) =
            match splitOnAmp rest with
            | s :: ss => (b :: s) :: ss
            | [] => [[b]] := by
          simp only [splitOnAmp, hbb]
          rfl
        cases rest with
        | nil =>
          rw [codeSegs_cons, hstep]
          simp [splitOnAmp, codeSegs, endsWithAmp, List.takeWhile,
            List.dropWhile, hbb]
        | cons r rs =>
          have hrest : (r :: rs).length ≤ n := by simp at hlen ⊢; omega
          have ihr := ih (r :: rs) hrest
          obtain ⟨s, ss, hss⟩ :
              ∃ s ss, splitOnAmp (r :: rs) = s :: ss := by
            cases hsa : splitOnAmp (r :: rs) with
            | nil => exact absurd hsa (splitOnAmp_ne_nil _)
            | cons s ss => exact ⟨s, ss, rfl⟩
          have hsplit : splitOnAmp (b :: r :: rs) = (b :: s) :: ss := by
            rw [hstep, hss]
          rw [hss] at ihr
          rw [codeSegs_cons] at ihr ⊢
          rw [htake, hdrop]
          have hend : endsWithAmp (b :: r :: rs) = endsWithAmp (r :: rs) := by
            simp [endsWithAmp]
          rw [hsplit]
          rw [List.cons_append] at ihr
          have hs1 : s = (r :: rs).takeWhile (fun x => !(x == 38)) :=
            (List.cons.injEq _ _ _ _ ▸ ihr).1
          have hs2 : ss =
              codeSegs (((r :: rs).dropWhile (fun x => !(x == 38))).drop 1) ++
                (if decide (r :: rs = []) || endsWithAmp (r :: rs) then [[]]
                 else []) :=
            (List.cons.injEq _ _ _ _ ▸ ihr).2
          rw [hs1, hs2, hend]
          simp

/-- Closed form of the `parse_into` loop: it fails with `OverLimit` exactly
when at least one segment exists and the final parameter count would exceed
the limit, and otherwise yields the split of every loop segment. -/
theorem parse_into_loop_eq :
    ∀ (n : Nat) (data : Bytes), data.length ≤ n → ∀ (cnt limit : Nat),
      parse_into_loop data cnt limit =
        if 0 < (codeSegs data).length ∧ limit < cnt + (codeSegs data).length
        then .error (.OverLimit limit)
        else .ok ((codeSegs data).map splitParam) := by
  intro n
  induction n with
  | zero =>
    intro data hlen cnt limit
    have : data = [] := by
      cases data with
      | nil => rfl
      | cons b rest => simp at hlen
    subst this
    simp [parse_into_loop, codeSegs]
  | succ n ih =>
    intro data hlen cnt limit
    cases data with
    | nil => simp [parse_into_loop, codeSegs]
    | cons b rest =>
      have htl := ampTail_length_lt b rest
      have htn : (((b :: rest).dropWhile (fun x => !(x == 38))).drop 1).length ≤
          n := by
        simp only [List.length_cons] at htl hlen
        omega
      have ihr := ih _ htn (cnt + 1) limit
      rw [parse_into_loop_cons, codeSegs_cons, ihr]
      by_cases hle : limit ≤ cnt
      · rw [if_pos hle]
        have hc : 0 < ((b :: rest).takeWhile (fun x => !(x == 38)) ::
            codeSegs (((b :: rest).dropWhile (fun x => !(x == 38))).drop 1)).length ∧
            limit < cnt + ((b :: rest).takeWhile (fun x => !(x == 38)) ::
            codeSegs (((b :: rest).dropWhile (fun x => !(x == 38))).drop 1)).length := by
          refine ⟨by simp, ?_⟩
          simp only [List.length_cons]
          omega
        rw [if_pos hc]
      · rw [if_neg hle]
        by_cases hov : 0 <
            (codeSegs (((b :: rest).dropWhile (fun x => !(x == 38))).drop 1)).length ∧
            limit < cnt + 1 +
            (codeSegs (((b :: rest).dropWhile (fun x => !(x == 38))).drop 1)).length
        · rw [if_pos hov]
          have hc : 0 < ((b :: rest).takeWhile (fun x => !(x == 38)) ::
              codeSegs (((b :: rest).dropWhile (fun x => !(x == 38))).drop 1)).length ∧
              limit < cnt + ((b :: rest).takeWhile (fun x => !(x == 38)) ::
              codeSegs (((b :: rest).dropWhile (fun x => !(x == 38))).drop 1)).length := by
            refine ⟨by simp, ?_⟩
            simp only [List.length_cons]
            omega
          rw [if_pos hc]
        · rw [if_neg hov]
          have hc : ¬(0 < ((b :: rest).takeWhile (fun x => !(x == 38)) ::
              codeSegs (((b :: rest).dropWhile (fun x => !(x == 38))).drop 1)).length ∧
              limit < cnt + ((b :: rest).takeWhile (fun x => !(x == 38)) ::
              codeSegs (((b :: rest).dropWhile (fun x => !(x == 38))).drop 1)).length) := by
            rintro ⟨-, h2⟩
            simp only [List.length_cons] at h2
            rcases Nat.eq_zero_or_pos
                (codeSegs (((b :: rest).dropWhile
                  (fun x => !(x == 38))).drop 1)).length with h0 | hp
            · omega
            · exact absurd ⟨hp, by omega⟩ hov
          rw [if_neg hc]
          rfl

/-- Core comparison of the loop result with the amended-claim computation,
for a fixed post-strip data. -/
theorem parse_into_core (data : Bytes) (limit : Nat) :
    (match parse_into_loop data 0 limit with
     | .error e => Except.error e
     | .ok ps => .ok (([] : List (Bytes × Bytes)) ++ ps)) =
    (if limit <
        ((if data = [] || endsWithAmp data then (splitOnAmp data).dropLast
          else splitOnAmp data).map splitParam).length
     then Except.error (QError.OverLimit limit)
     else .ok ((if data = [] || endsWithAmp data then (splitOnAmp data).dropLast
          else splitOnAmp data).map splitParam)) := by
  have hloop := parse_into_loop_eq data.length data le_rfl 0 limit
  have hbridge := splitOnAmp_eq_codeSegs data.length data le_rfl
  have hsegs : (if data = [] || endsWithAmp data then (splitOnAmp data).dropLast
      else splitOnAmp data) = codeSegs data := by
    by_cases hc : (decide (data = []) || endsWithAmp data) = true
    · rw [if_pos hc, hbridge, if_pos hc, List.dropLast_concat]
    · rw [if_neg hc, hbridge, if_neg hc, List.append_nil]
  rw [hsegs, hloop]
  by_cases hC : 0 < (codeSegs data).length ∧ limit < 0 + (codeSegs data).length
  · rw [if_pos hC]
    have : limit < ((codeSegs data).map splitParam).length := by
      rw [List.length_map]
      omega
    rw [if_pos this]
  · rw [if_neg hC]
    have : ¬limit < ((codeSegs data).map splitParam).length := by
      rw [List.length_map]
      rcases Nat.eq_zero_or_pos (codeSegs data).length with h0 | hp
      · omega
      · intro hlt
        exact hC ⟨hp, by omega⟩
    rw [if_neg this]
    rfl

/-- Claim C6 (amended): `Query::parse_into` on a fresh collection strips one
optional leading `?`, splits the remainder on `&` — dropping the final empty
segment produced when the remainder is empty or ends in `&` — splits each
segment at its first `=` into a (key, value) pair (no `=` meaning an empty
value, an empty segment between consecutive `&` giving the empty pair),
fails with `OverLimit n` exactly when the number of parameters would exceed
`n`, and fails with `Empty` exactly when the input is empty. -/
theorem query_parse_into_amended (q : Bytes) (limit : Nat) :
    parse_into [] q limit = querySpecParseAmended q limit := by
  cases q with
  | nil => rfl
  | cons b rest =>
    have hcons : (b :: rest : Bytes) ≠ [] := List.cons_ne_nil b rest
    simp only [parse_into, querySpecParseAmended, if_neg hcons,
      List.head?_cons, List.tail_cons, List.length_nil]
    by_cases hb : b = 63
    · subst hb
      have h1 : ((63 : Nat) == 63) = true := by decide
      have h2 : (some (63 : Nat) = some 63) = True := by simp
      rw [h1, if_pos]
      · exact parse_into_core rest limit
      · simp
    · have h1 : (b == 63) = false := by simp [hb]
      have h2 : ¬(some b = some (63 : Nat)) := by simp [hb]
      rw [h1, if_neg h2]
      simpa using parse_into_core (b :: rest) limit

/-- Witness evaluation for the C6 counterexample: the loop on `"a&"`. -/
theorem parse_into_trailing_amp :
    parse_into [] [97, 38] 10 = .ok [([97], [])] := by
  have hb := splitOnAmp_eq_codeSegs 2 [97, 38] (by simp)
  have hcond : (decide (([97, 38] : Bytes) = []) || endsWithAmp [97, 38]) =
      true := by decide
  rw [if_pos hcond] at hb
  have hsa : splitOnAmp [97, 38] = [[97], []] := by decide
  rw [hsa] at hb
  have hseg : codeSegs [97, 38] = [[97]] := by
    have hdl := congrArg List.dropLast hb
    rw [List.dropLast_concat] at hdl
    rw [← hdl]
    decide
  have h0 : parse_into_loop [97, 38] 0 10 =
      if 0 < (codeSegs [97, 38]).length ∧ 10 < 0 + (codeSegs [97, 38]).length
      then .error (.OverLimit 10)
      else .ok ((codeSegs [97, 38]).map splitParam) :=
    parse_into_loop_eq 2 [97, 38] (by simp) 0 10
  rw [hseg] at h0
  simp only [parse_into, List.length_nil,
    show ((97 : Nat) == 63) = false from rfl, Bool.false_eq_true, if_false]
  rw [h0]
  norm_num
  decide

/-- Claim C6 counterexample: on the input `"a&"` (bytes 97, 38) with limit
10, the code yields the single pair `("a", "")` while the claim's reading —
split the remainder on `&`, one pair per segment — yields the two pairs
`("a", "")` and `("", "")`; the claimed equation fails at this input. -/
theorem query_split_counterexample :
    parse_into [] [97, 38] 10 = .ok [([97], [])] ∧
    querySpecParse [97, 38] 10 = .ok [([97], []), ([], [])] ∧
    parse_into [] [97, 38] 10 ≠ querySpecParse [97, 38] 10 := by
  have hcode := parse_into_trailing_amp
  have hspec : querySpecParse [97, 38] 10 = .ok [([97], []), ([], [])] := by
    decide
  refine ⟨hcode, hspec, ?_⟩
  rw [hcode, hspec]
  simp

/-- Claim C10: query parsing applied to the one-byte input `"?"` returns
`Ok` with an empty collection of pairs, for every limit; and the `Empty`
error is raised exactly for the zero-length input. -/
theorem query_question_mark_only (n : Nat) :
    parse_into [] [63] n = .ok [] ∧
    ∀ q : Bytes, (parse_into [] q n = .error .Empty ↔ q = []) := by
  constructor
  · simp [parse_into, parse_into_loop]
  · intro q
    cases q with
    | nil => simp [parse_into]
    | cons b rest =>
      simp only [parse_into, List.length_nil]
      constructor
      · intro hcon
        have hloop := parse_into_loop_eq
          (if b == 63 then rest else b :: rest).length
          (if b == 63 then rest else b :: rest) le_rfl 0 n
        rw [hloop] at hcon
        by_cases hC : 0 <
            (codeSegs (if b == 63 then rest else b :: rest)).length ∧
            n < 0 + (codeSegs (if b == 63 then rest else b :: rest)).length
        · rw [if_pos hC] at hcon
          simp at hcon
        · rw [if_neg hC] at hcon
          simp at hcon
      · intro h
        exact absurd h (List.cons_ne_nil b rest)

/-! ## Theorems: request body (claim C2) -/

/-- Claim C2: for every connection state reaching the body check (cursor
within the valid bytes, valid bytes within the buffer, no body yet): when a
`Content-Length` of `n` was parsed and exactly `n` bytes remain after the
header terminator, parsing succeeds and the body is exactly those `n` bytes
(so its length equals the content length); when `n` differs from the
remaining byte count, parsing fails with `BodyMismatch` carrying `n` and the
remaining count; without a `Content-Length`, remaining bytes fail with
`UnexpectedBody` of their count, and no remaining bytes succeed with no
body. -/
theorem check_body_contract (c : Conn)
    (hpl : c.parser.position ≤ c.parser.len)
    (hlb : c.parser.len ≤ c.parser.buffer.length)
    (hb : c.body = none) :
    (∀ n, c.content_length = some n →
      (n = c.parser.len - c.parser.position →
        check_body c = .ok { c with body := some ((c.parser.buffer.drop c.parser.position).take n) } ∧
        ((c.parser.buffer.drop c.parser.position).take n).length = n) ∧
      (n ≠ c.parser.len - c.parser.position →
        check_body c =
          .error (.BodyMismatch n (c.parser.len - c.parser.position)))) ∧
    (c.content_length = none →
      (c.parser.len - c.parser.position = 0 →
        check_body c = .ok c ∧ c.body = none) ∧
      (c.parser.len - c.parser.position ≠ 0 →
        check_body c =
          .error (.UnexpectedBody (c.parser.len - c.parser.position)))) := by
  constructor
  · intro n hcl
    constructor
    · intro hn
      have hslice : get_slice c.parser c.parser.position n =
          some ((c.parser.buffer.drop c.parser.position).take n) := by
        unfold get_slice
        rw [if_pos (by omega)]
      constructor
      · simp only [check_body, hcl, if_pos hn, hslice]
      · rw [List.length_take, List.length_drop]
        omega
    · intro hn
      simp only [check_body, hcl, if_neg hn]
  · intro hcl
    constructor
    · intro h0
      refine ⟨?_, hb⟩
      simp only [check_body, hcl, if_pos h0]
    · intro h0
      simp only [check_body, hcl, if_neg h0]

/-- Witness for claim C2: a concrete state with content length 3 and three
remaining bytes yields exactly those three bytes as the body. -/
theorem check_body_contract_witness :
    check_body
      ⟨⟨2, 5, false, [65, 66, 67, 68, 69]⟩, .Get, .Http11,
        [], none, [], [], [], [], some 3, none, .Http11, true⟩ =
    .ok ⟨⟨2, 5, false, [65, 66, 67, 68, 69]⟩, .Get, .Http11,
        [], none, [], [], [], [], some 3, some [67, 68, 69], .Http11, true⟩ := by
  have h := check_body_contract
    ⟨⟨2, 5, false, [65, 66, 67, 68, 69]⟩, .Get, .Http11,
      [], none, [], [], [], [], some 3, none, .Http11, true⟩
    (by decide) (by decide) rfl
  exact ((h.1 3 rfl).1 (by decide)).1

/-! ## Theorems: line terminators (claim C3) -/

/-- Claim C3 counterexample: the request `GET / HTTP/1.1\n\n`, whose every
line is terminated by a bare LF, parses successfully as HTTP/1.1 — so the
parser does not reject every request with bare-LF line endings. -/
theorem bare_lf_request_counterexample :
    parseOk (parseConn smallLimits false
      (mkConn smallLimits (bytes "GET / HTTP/1.1\n\n"))) = true ∧
    parsedVersion (parseConn smallLimits false
      (mkConn smallLimits (bytes "GET / HTTP/1.1\n\n"))) = some .Http11 := by
  decide

/-- Claim C3 (amended): every line is terminated by LF; the first line fixes
the terminator mode (CRLF when it ends in `\r\n`, bare LF otherwise). In CRLF
mode a header line not terminated by `\r\n` is rejected with `InvalidHeader`.
In bare-LF mode a CRLF-terminated header line is nevertheless accepted, the
`\r` remaining as the last byte of the header value. The blank line closing
the header section must match the mode (`\r\n\r\n` in CRLF mode, `\n\n` in
bare-LF mode) or the request is rejected with `InvalidHeader`. A first line
ending in a bare CR without LF is rejected with `InvalidVersion`. -/
theorem line_terminator_mode :
    parseOk (parseConn smallLimits false
      (mkConn smallLimits (bytes "GET / HTTP/1.1\r\nHost: x\r\n\r\n"))) =
      true ∧
    parseOk (parseConn smallLimits false
      (mkConn smallLimits (bytes "GET / HTTP/1.1\nHost: x\n\n"))) = true ∧
    parseErr (parseConn smallLimits false
      (mkConn smallLimits (bytes "GET / HTTP/1.1\r\nHost: x\n\r\n"))) =
      some .InvalidHeader ∧
    parseOk (parseConn smallLimits false
      (mkConn smallLimits (bytes "GET / HTTP/1.1\nHost: x\r\n\n"))) = true ∧
    parsedHeaders (parseConn smallLimits false
      (mkConn smallLimits (bytes "GET / HTTP/1.1\nHost: x\r\n\n"))) =
      some [(bytes "host", bytes "x\r")] ∧
    parseErr (parseConn smallLimits false
      (mkConn smallLimits (bytes "GET / HTTP/1.1\nHost: x\r\n\r\n"))) =
      some .InvalidHeader ∧
    parseErr (parseConn smallLimits false
      (mkConn smallLimits (bytes "GET / HTTP/1.1\r"))) =
      some .InvalidVersion := by
  decide

/-! ## Theorems: double slashes (claim C4) -/

/-- Claim C4 counterexample: the request `GET //api HTTP/1.1\r\n\r\n`
parses successfully — there is no `DoubleSlash` variant in the error
taxonomy and consecutive slashes do not fail the parse. -/
theorem double_slash_counterexample :
    parseOk (parseConn smallLimits false
      (mkConn smallLimits (bytes "GET //api HTTP/1.1\r\n\r\n"))) = true := by
  decide

/-- Claim C4 (amended): a path containing two consecutive `/` characters is
accepted; the empty segment between the slashes is dropped, so
`GET //api HTTP/1.1` yields target `//api`, path `//api` and the single
segment `api`. -/
theorem double_slash_accepted :
    parsedTarget (parseConn smallLimits false
      (mkConn smallLimits (bytes "GET //api HTTP/1.1\r\n\r\n"))) =
      some (bytes "//api") ∧
    parsedPath (parseConn smallLimits false
      (mkConn smallLimits (bytes "GET //api HTTP/1.1\r\n\r\n"))) =
      some (bytes "//api") ∧
    parsedParts (parseConn smallLimits false
      (mkConn smallLimits (bytes "GET //api HTTP/1.1\r\n\r\n"))) =
      some [bytes "api"] := by
  decide

/-! ## Theorems: request-head encoding (claim C5) -/

/-- Claim C5 evaluation: the request `GET /\xff HTTP/1.1\r\n\r\n`, whose
head contains the non-UTF-8 byte 255, parses successfully and the invalid
byte is exposed in the URL target view; the parser performs no UTF-8
validation and the error taxonomy has no `InvalidEncoding` variant. -/
theorem non_utf8_head_parses :
    parseOk (parseConn smallLimits false (mkConn smallLimits
      ([71, 69, 84, 32, 47, 255, 32] ++ bytes "HTTP/1.1\r\n\r\n"))) = true ∧
    parsedTarget (parseConn smallLimits false (mkConn smallLimits
      ([71, 69, 84, 32, 47, 255, 32] ++ bytes "HTTP/1.1\r\n\r\n"))) =
      some [47, 255] := by
  decide

/-! ## Theorems: HTTP/0.9 method restriction (claim C7) -/

/-- Claim C7 counterexample: with HTTP/0.9 limits configured, the first line
`POST /x\r\n` is rejected with `InvalidUrl` — acceptance of the
version-less form does depend on the method. -/
theorem http09_post_counterexample :
    parseErr (parseConn smallLimits true
      (mkConn smallLimits (bytes "POST /x\r\n"))) = some .InvalidUrl := by
  decide

/-- Claim C7 (amended): with HTTP/0.9 limits configured, a first line
`METHOD SP PATH CRLF` with no version token is accepted only for `GET`:
`GET /x` parses as Http09, while the same line with any of the other
supported methods fails with `InvalidUrl`. -/
theorem http09_only_get :
    parsedVersion (parseConn smallLimits true
      (mkConn smallLimits (bytes "GET /x\r\n"))) = some .Http09 ∧
    parsedTarget (parseConn smallLimits true
      (mkConn smallLimits (bytes "GET /x\r\n"))) = some (bytes "/x") ∧
    parseErr (parseConn smallLimits true
      (mkConn smallLimits (bytes "PUT /x\r\n"))) = some .InvalidUrl ∧
    parseErr (parseConn smallLimits true
      (mkConn smallLimits (bytes "POST /x\r\n"))) = some .InvalidUrl ∧
    parseErr (parseConn smallLimits true
      (mkConn smallLimits (bytes "HEAD /x\r\n"))) = some .InvalidUrl ∧
    parseErr (parseConn smallLimits true
      (mkConn smallLimits (bytes "PATCH /x\r\n"))) = some .InvalidUrl ∧
    parseErr (parseConn smallLimits true
      (mkConn smallLimits (bytes "DELETE /x\r\n"))) = some .InvalidUrl ∧
    parseErr (parseConn smallLimits true
      (mkConn smallLimits (bytes "OPTIONS /x\r\n"))) = some .InvalidUrl := by
  decide

/-! ## Theorems: response builder (claim C1) -/

/-- A number below `10 ^ k` has at most `k` decimal digits. -/
theorem natDigits_length_le : ∀ (k n : Nat), n < 10 ^ k →
    (natDigits n).length ≤ k := by
  intro k
  induction k with
  | zero =>
    intro n h
    have hn : n = 0 := by
      have : (10 : Nat) ^ 0 = 1 := by norm_num
      omega
    subst hn
    simp [natDigits]
  | succ k ih =>
    intro n h
    by_cases hn : n = 0
    · subst hn
      simp [natDigits]
    · rw [natDigits, dif_neg hn]
      have hdiv : n / 10 < 10 ^ k := by
        rw [Nat.div_lt_iff_lt_mul (by norm_num : (0 : Nat) < 10)]
        calc n < 10 ^ (k + 1) := h
          _ = 10 ^ k * 10 := by rw [pow_succ]
      have := ih (n / 10) hdiv
      simp only [List.length_append, List.length_cons, List.length_nil]
      omega

/-- For lengths below ten digits, bytes 29..39 of the `number_to_bytes`
array are exactly the right-aligned zero-padded ten-digit rendering. -/
theorem number_slot (n : Nat) (h : n < 10 ^ 10) :
    ((number_to_bytes n).1.drop 29).take 10 = pad10 n ∧
      (pad10 n).length = 10 := by
  have hl : (natDigits n).length ≤ 10 := natDigits_length_le 10 n h
  have hlen : (pad10 n).length = 10 := by
    simp only [pad10, List.length_append, List.length_replicate]
    omega
  refine ⟨?_, hlen⟩
  simp only [number_to_bytes]
  have hsplit : (39 : Nat) - (natDigits n).length =
      29 + (10 - (natDigits n).length) := by omega
  rw [hsplit, List.replicate_add, List.append_assoc,
    List.drop_left' (by simp : (List.replicate 29 (48 : Nat)).length = 29)]
  rw [show List.replicate (10 - (natDigits n).length) (48 : Nat) ++ natDigits n
      = pad10 n from rfl]
  exact List.take_of_length_le (le_of_eq hlen)

/-- Shape of the builder state after `start_body`: the buffer gains the
connection-header bytes, the literal `"content-length: "`, the ten-zero
slot and the blank line, with the slot position and body start recorded. -/
theorem respStartBody_eq (r : RespB) :
    respStartBody r =
      { r with
        buffer := ((r.buffer ++ connBytes r ++ bytes "content-length: ") ++
          bytes "0000000000") ++ [13, 10, 13, 10],
        posit_length := (r.buffer ++ connBytes r ++
          bytes "content-length: ").length,
        start_body := (((r.buffer ++ connBytes r ++
          bytes "content-length: ") ++ bytes "0000000000") ++
          [13, 10, 13, 10]).length } := by
  cases hc : connection_header r with
  | none =>
    simp [respStartBody, respHeader, connBytes, hc, bytes, List.append_assoc]
  | some v =>
    simp [respStartBody, respHeader, connBytes, hc, bytes, List.append_assoc]

/-- Closed form of `body(data)`: the final buffer is the header prefix, the
back-patched ten-digit length, the blank line and the body, with the marker
fields unchanged since `start_body`. -/
theorem respBody_eq (D : Bytes) (r0 : RespB) (h : D.length < 10 ^ 10) :
    respBody D r0 =
      { r0 with
        buffer := ((r0.buffer ++ connBytes r0 ++ bytes "content-length: ") ++
          pad10 D.length) ++ ([13, 10, 13, 10] ++ D),
        posit_length := (r0.buffer ++ connBytes r0 ++
          bytes "content-length: ").length,
        start_body := (r0.buffer ++ connBytes r0 ++
          bytes "content-length: ").length + 14,
        state := .Complete } := by
  have hz : (bytes "0000000000").length = 10 := by decide
  have hslot := number_slot D.length h
  unfold respBody
  rw [respStartBody_eq]
  simp only [respEndBody]
  set A := r0.buffer ++ connBytes r0 ++ bytes "content-length: " with hA
  set Z := bytes "0000000000" with hZ
  set T : Bytes := [13, 10, 13, 10] with hT
  have hbl : (((A ++ Z) ++ T) ++ D).length - ((A ++ Z) ++ T).length =
      D.length := by
    simp only [List.length_append]
    omega
  have htake : (((A ++ Z) ++ T) ++ D).take A.length = A := by
    have : ((A ++ Z) ++ T) ++ D = A ++ (Z ++ (T ++ D)) := by
      simp [List.append_assoc]
    rw [this, List.take_left]
  have hdrop : (((A ++ Z) ++ T) ++ D).drop (A.length + 10) = T ++ D := by
    have h1 : ((A ++ Z) ++ T) ++ D = (A ++ Z) ++ (T ++ D) := by
      simp [List.append_assoc]
    have h2 : (A ++ Z).length = A.length + 10 := by
      simp [List.length_append, hz]
    rw [h1, List.drop_left' h2]
  simp only [hbl, htake, hdrop, hslot.1]
  have hstart : ((A ++ Z) ++ T).length = A.length + 14 := by
    rw [hT, hZ]
    simp [List.length_append, bytes]
  rw [hstart]

/-- Claim C1 (theorem): for every HTTP/1.x response built through one
`status` call, any sequence of header-phase calls and one `body(data)` call
with a body shorter than ten decimal digits, the ten bytes written into the
reserved content-length slot are the right-aligned zero-padded decimal
rendering of exactly the byte count between the blank-line terminator and
the buffer end; those trailing bytes are exactly the body, and the four
bytes before `start_body` are the blank-line terminator. -/
theorem builder_content_length_slot (v : Version) (ka : Bool)
    (firstLine : Bytes) (calls : List HCall) (data : Bytes)
    (h : data.length < 10 ^ 10) :
    (((respBody data (applyHCalls calls (respStatus firstLine
        (setVersionKa v ka respNew)))).buffer.drop
      (respBody data (applyHCalls calls (respStatus firstLine
        (setVersionKa v ka respNew)))).posit_length).take 10 =
      pad10 ((respBody data (applyHCalls calls (respStatus firstLine
        (setVersionKa v ka respNew)))).buffer.length -
        (respBody data (applyHCalls calls (respStatus firstLine
          (setVersionKa v ka respNew)))).start_body)) ∧
    (respBody data (applyHCalls calls (respStatus firstLine
        (setVersionKa v ka respNew)))).buffer.drop
      (respBody data (applyHCalls calls (respStatus firstLine
        (setVersionKa v ka respNew)))).start_body = data ∧
    ((respBody data (applyHCalls calls (respStatus firstLine
        (setVersionKa v ka respNew)))).buffer.drop
      ((respBody data (applyHCalls calls (respStatus firstLine
        (setVersionKa v ka respNew)))).start_body - 4)).take 4 =
      [13, 10, 13, 10] := by
  set r0 := applyHCalls calls (respStatus firstLine (setVersionKa v ka respNew))
  rw [respBody_eq data r0 h]
  set A := r0.buffer ++ connBytes r0 ++ bytes "content-length: " with hA
  set P := pad10 data.length with hP
  have hp10 : P.length = 10 := (number_slot data.length h).2
  have hlen : (((A ++ P) ++ ([13, 10, 13, 10] ++ data)).length) =
      A.length + 14 + data.length := by
    simp [List.length_append, hp10]
    omega
  refine ⟨?_, ?_, ?_⟩
  · have h1 : (A ++ P) ++ ([13, 10, 13, 10] ++ data) =
        A ++ (P ++ ([13, 10, 13, 10] ++ data)) := by
      simp [List.append_assoc]
    rw [hlen]
    have h2 : A.length + 14 + data.length - (A.length + 14) = data.length := by
      omega
    rw [h2, h1, List.drop_left, List.take_left' hp10]
  · have h1 : (A ++ P) ++ ([13, 10, 13, 10] ++ data) =
        ((A ++ P) ++ [13, 10, 13, 10]) ++ data := by
      simp [List.append_assoc]
    have h2 : ((A ++ P) ++ [13, 10, 13, 10] : Bytes).length =
        A.length + 14 := by
      simp [List.length_append, hp10]
    rw [h1, List.drop_left' h2]
  · have h1 : (A ++ P) ++ ([13, 10, 13, 10] ++ data) =
        (A ++ P) ++ ([13, 10, 13, 10] ++ data) := rfl
    have h2 : (A ++ P : Bytes).length = A.length + 14 - 4 := by
      simp [List.length_append, hp10]
    rw [List.drop_left' h2]
    rfl

/-- Witness for claim C1: the spec's scenario —
`status(200).header("content-type","text/plain").body("Hello")` — has a
five-byte body, and the theorem applies to it. -/
theorem builder_content_length_slot_witness :
    (bytes "Hello").length < 10 ^ 10 ∧
    ((((respBody (bytes "Hello") (applyHCalls
        [.hdr (bytes "content-type") (bytes "text/plain")]
        (respStatus (bytes "HTTP/1.1 200 OK\r\n")
          (setVersionKa .Http11 true respNew)))).buffer.drop
      (respBody (bytes "Hello") (applyHCalls
        [.hdr (bytes "content-type") (bytes "text/plain")]
        (respStatus (bytes "HTTP/1.1 200 OK\r\n")
          (setVersionKa .Http11 true respNew)))).posit_length).take 10 =
      pad10 ((respBody (bytes "Hello") (applyHCalls
        [.hdr (bytes "content-type") (bytes "text/plain")]
        (respStatus (bytes "HTTP/1.1 200 OK\r\n")
          (setVersionKa .Http11 true respNew)))).buffer.length -
        (respBody (bytes "Hello") (applyHCalls
          [.hdr (bytes "content-type") (bytes "text/plain")]
          (respStatus (bytes "HTTP/1.1 200 OK\r\n")
            (setVersionKa .Http11 true respNew)))).start_body)) ∧
    (respBody (bytes "Hello") (applyHCalls
        [.hdr (bytes "content-type") (bytes "text/plain")]
        (respStatus (bytes "HTTP/1.1 200 OK\r\n")
          (setVersionKa .Http11 true respNew)))).buffer.drop
      (respBody (bytes "Hello") (applyHCalls
        [.hdr (bytes "content-type") (bytes "text/plain")]
        (respStatus (bytes "HTTP/1.1 200 OK\r\n")
          (setVersionKa .Http11 true respNew)))).start_body = bytes "Hello" ∧
    ((respBody (bytes "Hello") (applyHCalls
        [.hdr (bytes "content-type") (bytes "text/plain")]
        (respStatus (bytes "HTTP/1.1 200 OK\r\n")
          (setVersionKa .Http11 true respNew)))).buffer.drop
      ((respBody (bytes "Hello") (applyHCalls
        [.hdr (bytes "content-type") (bytes "text/plain")]
        (respStatus (bytes "HTTP/1.1 200 OK\r\n")
          (setVersionKa .Http11 true respNew)))).start_body - 4)).take 4 =
      [13, 10, 13, 10]) :=
  ⟨by decide,
   builder_content_length_slot .Http11 true (bytes "HTTP/1.1 200 OK\r\n")
     [.hdr (bytes "content-type") (bytes "text/plain")] (bytes "Hello")
     (by decide)⟩

/-! ## Theorems: canned error responses (claim C9) -/

/-- Claim C9 counterexample: the canned HTTP/0.9 body for a 400 error is
not the plain `ERROR: 400 Bad Request` the claim states — the `stringify!`
expansion keeps the status string literal's quote characters. -/
theorem http09_error_body_counterexample :
    as_http .InvalidMethod .Http09 true ≠ "ERROR: 400 Bad Request" ∧
    as_http .InvalidMethod .Http09 true = "ERROR: \"400 Bad Request\"" := by
  decide

/-- Claim C9 (amended): for every error kind and HTTP/1.x version, the
canned response opens with the appropriate status line and carries
`connection: close`; with `json_errors` the response carries
`content-type: application/json` and a body of the form
`{"error":"<message>","code":"<code>"}`, identical across the two versions;
without it the body is empty and the response ends with
`content-length: 0` and the blank line.  For HTTP/0.9 the body is
`ERROR: "<status>"` with the status text in double quotes. -/
theorem canned_response_shape (e : EK) (b : Bool) :
    strStarts ("HTTP/1.1 " ++ statusOfSpec e ++ "\r\n") (as_http e .Http11 b) =
      true ∧
    strStarts ("HTTP/1.0 " ++ statusOfSpec e ++ "\r\n") (as_http e .Http10 b) =
      true ∧
    containsStr "\r\nconnection: close\r\n" (as_http e .Http11 b) = true ∧
    containsStr "\r\nconnection: close\r\n" (as_http e .Http10 b) = true ∧
    (b = true →
      containsStr "\r\ncontent-type: application/json\r\n"
        (as_http e .Http11 b) = true ∧
      containsStr "\r\ncontent-type: application/json\r\n"
        (as_http e .Http10 b) = true ∧
      strStarts "\x7b\"error\":\"" (bodyOf (as_http e .Http11 b)) = true ∧
      strEnds "\"\x7d" (bodyOf (as_http e .Http11 b)) = true ∧
      containsStr "\",\"code\":\"" (bodyOf (as_http e .Http11 b)) = true ∧
      bodyOf (as_http e .Http10 b) = bodyOf (as_http e .Http11 b)) ∧
    (b = false →
      bodyOf (as_http e .Http11 b) = "" ∧
      bodyOf (as_http e .Http10 b) = "" ∧
      strEnds "content-length: 0\r\n\r\n" (as_http e .Http11 b) = true ∧
      strEnds "content-length: 0\r\n\r\n" (as_http e .Http10 b) = true) ∧
    as_http e .Http09 b = "ERROR: \"" ++ statusOfSpec e ++ "\"" := by
  cases e <;> cases b <;> exact of_decide_eq_true rfl

/-! ## Theorems: header budget (claim C8) -/

/-- Claim C8 counterexample: with `header_count = 1`, a request with one
ordinary header plus a `Content-Length` header fails with `TooManyHeaders`,
although it contains only one non-special header — special headers do count
against the budget. -/
theorem special_header_budget_counterexample :
    parseErr (parseConn smallLimits1 false (mkConn smallLimits1
      (bytes "GET / HTTP/1.1\r\nA: b\r\nContent-Length: 0\r\n\r\n"))) =
      some .TooManyHeaders := by
  decide

/-- Claim C8 (amended): the blank line must arrive within
`header_count + 1` header-line parses, so a request fails with
`TooManyHeaders` exactly when its total number of header lines — special
headers (`Content-Length`, `Connection`) included — exceeds `header_count`.
With `header_count = 1`: one ordinary header parses, one `Content-Length`
parses, one ordinary plus `Content-Length` fails, two ordinary headers
fail. -/
theorem header_budget_counts_special :
    parseOk (parseConn smallLimits1 false (mkConn smallLimits1
      (bytes "GET / HTTP/1.1\r\nA: b\r\n\r\n"))) = true ∧
    parseOk (parseConn smallLimits1 false (mkConn smallLimits1
      (bytes "GET / HTTP/1.1\r\nContent-Length: 0\r\n\r\n"))) = true ∧
    parseErr (parseConn smallLimits1 false (mkConn smallLimits1
      (bytes "GET / HTTP/1.1\r\nA: b\r\nContent-Length: 0\r\n\r\n"))) =
      some .TooManyHeaders ∧
    parseErr (parseConn smallLimits1 false (mkConn smallLimits1
      (bytes "GET / HTTP/1.1\r\nA: b\r\nB: c\r\n\r\n"))) =
      some .TooManyHeaders := by
  decide

end MakerWeb
